import Mathlib

/-!
Verification development for the BusNotify real-time tracking subsystem.
The definitions below are shallow embeddings of the Python source:
`app/simulation/engine.py`, `app/services/realtime.py` and
`app/websocket/manager.py`.  Python floats are modelled by exact
rationals, wall-clock timestamps are omitted, and every random draw is
taken as an explicit parameter of the function that samples it.
-/

namespace BusNotify

/-- Pointwise update of a string-keyed map, modelling a Python dict
assignment `m[k] = v` (with `Option` values, `none` meaning the key is
absent). -/
def upd {α : Type} (f : String → α) (k : String) (v : α) : String → α :=
  fun x => if x = k then v else f x

theorem upd_same {α : Type} (f : String → α) (k : String) (v : α) : upd f k v k = v := by
  simp [upd]

theorem upd_other {α : Type} (f : String → α) (k : String) (v : α) (x : String)
    (h : x ≠ k) : upd f k v x = f x := by
  simp [upd, h]

/-- Geographic coordinate, from `app.models.schemas.Coordinate`.
Latitude/longitude are exact rationals. -/
@[ext] structure Coordinate where
  latitude : ℚ
  longitude : ℚ
  deriving DecidableEq, Repr

/-- A route segment between two consecutive stops, from
`engine.RouteSegment`. -/
structure RouteSegment where
  start_stop_id : String
  end_stop_id : String
  distance_km : ℚ
  expected_duration_minutes : ℚ
  start_location : Coordinate
  end_location : Coordinate
  deriving DecidableEq, Repr

/-- Per-trip simulator state, from `engine.BusSimulator.__init__`. -/
structure BusSimulator where
  trip_id : String
  current_segment : Option RouteSegment
  segment_progress : ℚ
  base_speed_kmh : ℚ
  current_speed_kmh : ℚ
  accumulated_delay_minutes : ℚ
  deriving DecidableEq, Repr

/-- Position record, from `schemas.TripPosition`; the wall-clock fields
`estimated_arrival` and `last_updated` are omitted. -/
structure TripPosition where
  location : Coordinate
  next_stop_id : String
  distance_to_next_stop_km : ℚ
  deriving DecidableEq, Repr

/-- `BusSimulator.interpolate_position`: linear interpolation between two
coordinates at the given progress. -/
def interpolate_position (start fin : Coordinate) (progress : ℚ) : Coordinate :=
  { latitude := start.latitude + (fin.latitude - start.latitude) * progress
    longitude := start.longitude + (fin.longitude - start.longitude) * progress }

/-- `BusSimulator.update_position` for one time step.  Returns the mutated
simulator together with the reported `TripPosition` (`none` when there is
no current segment, as in the source). -/
def update_position (sim : BusSimulator) (time_step_seconds : ℚ) :
    BusSimulator × Option TripPosition :=
  match sim.current_segment with
  | none => (sim, none)
  | some seg =>
    let time_step_hours := time_step_seconds / 3600
    let distance_moved_km := sim.current_speed_kmh * time_step_hours
    let new_progress :=
      if 0 < seg.distance_km then
        min 1 (sim.segment_progress + distance_moved_km / seg.distance_km)
      else sim.segment_progress
    let sim2 := { sim with segment_progress := new_progress }
    let current_location :=
      interpolate_position seg.start_location seg.end_location new_progress
    let distance_to_next_stop := (1 - new_progress) * seg.distance_km
    (sim2, some { location := current_location
                  next_stop_id := seg.end_stop_id
                  distance_to_next_stop_km := distance_to_next_stop })

/-- `BusSimulator.advance_to_next_segment`.  The two random delay draws and
the two random speed factors of the source are parameters
(`factor_delayed` stands for `uniform(0.8, 0.95)`, `factor_recover` for
`uniform(1.0, 1.1)`).  Returns the mutated simulator and the boolean the
method returns. -/
def advance_to_next_segment (sim : BusSimulator) (route_segments : List RouteSegment)
    (traffic_delay operational_delay factor_delayed factor_recover : ℚ) :
    BusSimulator × Bool :=
  match sim.current_segment with
  | none => (sim, false)
  | some cur =>
    match route_segments.findIdx? (fun s =>
        s.start_stop_id == cur.start_stop_id && s.end_stop_id == cur.end_stop_id) with
    | none => (sim, false)
    | some i =>
      match route_segments[i + 1]? with
      | none => (sim, false)
      | some nextSeg =>
        let total_delay := traffic_delay + operational_delay
        ({ sim with
            current_segment := some nextSeg
            segment_progress := 0
            accumulated_delay_minutes := sim.accumulated_delay_minutes + total_delay
            current_speed_kmh := sim.base_speed_kmh *
              (if 0 < total_delay then factor_delayed else factor_recover) }, true)

/-- Trip status enumeration, from `app.models.schemas.TripStatus`. -/
inductive TripStatus where
  | scheduled
  | in_progress
  | completed
  | cancelled
  | delayed
  deriving DecidableEq, Repr

/-- The persisted trip fields touched by `_update_trip_simulation` and
`_complete_trip` (timestamps omitted).  `completed_stops` models the
`completed_stops` key of the trip document, assumed present. -/
structure TripRec where
  status : TripStatus
  completed_stops : List String
  delay_minutes : ℚ
  next_stop_id : Option String
  current_position : Option TripPosition
  deriving DecidableEq, Repr

/-- `SimulationEngine._update_trip_simulation` for one trip, with the
random draws of `advance_to_next_segment` as parameters.  Returns the trip
record as written back to the store and the simulator kept in
`active_simulators` (`none` when the trip completed and the simulator was
discarded).  In the completion branch only the status write of
`_complete_trip` happens, exactly as in the source, which returns before
the `completed_stops` write. -/
def update_trip_simulation (trip : TripRec) (sim : BusSimulator)
    (route_segments : List RouteSegment)
    (dt traffic_delay operational_delay factor_delayed factor_recover : ℚ) :
    TripRec × Option BusSimulator :=
  let p := update_position sim dt
  match p.2 with
  | none => (trip, some p.1)
  | some pos =>
    if pos.distance_to_next_stop_km < 1 / 10 then
      let cs := trip.completed_stops
      let cs2 := if pos.next_stop_id ∈ cs then cs else cs ++ [pos.next_stop_id]
      let a := advance_to_next_segment p.1 route_segments traffic_delay
        operational_delay factor_delayed factor_recover
      if a.2 then
        let nextStop := match a.1.current_segment with
          | some seg => seg.end_stop_id
          | none => pos.next_stop_id
        ({ trip with
            current_position := some { pos with next_stop_id := nextStop }
            delay_minutes := a.1.accumulated_delay_minutes
            next_stop_id := some nextStop
            completed_stops := cs2 }, some a.1)
      else
        ({ trip with status := TripStatus.completed }, none)
    else
      ({ trip with
          current_position := some pos
          delay_minutes := p.1.accumulated_delay_minutes
          next_stop_id := some pos.next_stop_id }, some p.1)

theorem advance_progress_zero (sim : BusSimulator) (segs : List RouteSegment)
    (a b c d : ℚ) (h : (advance_to_next_segment sim segs a b c d).2 = true) :
    (advance_to_next_segment sim segs a b c d).1.segment_progress = 0 := by
  unfold advance_to_next_segment at h ⊢
  cases hcur : sim.current_segment with
  | none => simp [hcur] at h
  | some cur =>
    simp only [hcur] at h ⊢
    cases hidx : segs.findIdx? (fun s =>
        s.start_stop_id == cur.start_stop_id && s.end_stop_id == cur.end_stop_id) with
    | none => simp [hidx] at h
    | some i =>
      simp only [hidx] at h ⊢
      cases hget : segs[i + 1]? with
      | none => simp [hget] at h
      | some nextSeg => simp [hget]

/-- Claim C6 (confirmed): `segment_progress` stays in the interval from 0
to 1 — one `update_position` step with non-negative speed and time step
never decreases it and clamps it at 1, and a successful
`advance_to_next_segment` resets it to exactly 0. -/
theorem C6_progress_bounds :
    (∀ (sim : BusSimulator) (seg : RouteSegment) (dt : ℚ),
        sim.current_segment = some seg →
        0 ≤ sim.segment_progress → sim.segment_progress ≤ 1 →
        0 ≤ sim.current_speed_kmh → 0 ≤ dt →
        sim.segment_progress ≤ (update_position sim dt).1.segment_progress ∧
        0 ≤ (update_position sim dt).1.segment_progress ∧
        (update_position sim dt).1.segment_progress ≤ 1) ∧
    (∀ (sim : BusSimulator) (segs : List RouteSegment) (a b c d : ℚ),
        (advance_to_next_segment sim segs a b c d).2 = true →
        (advance_to_next_segment sim segs a b c d).1.segment_progress = 0) := by
  constructor
  · intro sim seg dt hseg h0 h1 hv hdt
    unfold update_position
    simp only [hseg]
    by_cases hd : 0 < seg.distance_km
    · have hdelta : 0 ≤ sim.current_speed_kmh * (dt / 3600) / seg.distance_km := by
        apply div_nonneg
        · exact mul_nonneg hv (by positivity)
        · exact le_of_lt hd
      simp only [hd, if_true]
      refine ⟨le_min h1 (by linarith), ?_, min_le_left _ _⟩
      exact le_trans h0 (le_min h1 (by linarith))
    · simp [hd, h0, h1, le_refl]
  · intro sim segs a b c d h
    exact advance_progress_zero sim segs a b c d h

/-- Claim C7 (confirmed): a single `update_position` step on a segment of
positive distance moves the progress to the clamp of the old progress plus
exactly `speed * (dt / 3600) / distance`. -/
theorem C7_progress_delta (sim : BusSimulator) (seg : RouteSegment) (dt : ℚ)
    (hseg : sim.current_segment = some seg) (hd : 0 < seg.distance_km) :
    (update_position sim dt).1.segment_progress =
      min 1 (sim.segment_progress + sim.current_speed_kmh * (dt / 3600) / seg.distance_km) := by
  unfold update_position
  simp [hseg, hd]

/-- Claim C8 (confirmed): `interpolate_position` returns exactly the start
coordinate at progress 0 and exactly the end coordinate at progress 1. -/
theorem C8_interpolate_endpoints (s e : Coordinate) :
    interpolate_position s e 0 = s ∧ interpolate_position s e 1 = e := by
  constructor
  · ext <;> simp [interpolate_position]
  · ext <;> simp [interpolate_position]

def segC7 : RouteSegment :=
  { start_stop_id := "A", end_stop_id := "B", distance_km := 2
    expected_duration_minutes := 4
    start_location := { latitude := 0, longitude := 0 }
    end_location := { latitude := 0, longitude := 1 } }

def simC7 : BusSimulator :=
  { trip_id := "t1", current_segment := some segC7, segment_progress := 0
    base_speed_kmh := 30, current_speed_kmh := 30, accumulated_delay_minutes := 0 }

/-- Witness for C7: a 2 km segment at 30 km/h ticked with dt = 60 s gains
exactly 1/4 progress. -/
theorem C7_witness : (update_position simC7 60).1.segment_progress = 1 / 4 := by
  have h := C7_progress_delta simC7 segC7 60 rfl (by norm_num [segC7])
  rw [h]
  norm_num [simC7, segC7, min_def]

def segC6b : RouteSegment :=
  { start_stop_id := "B", end_stop_id := "C", distance_km := 3
    expected_duration_minutes := 6
    start_location := { latitude := 0, longitude := 1 }
    end_location := { latitude := 0, longitude := 2 } }

def simC6 : BusSimulator :=
  { trip_id := "t1", current_segment := some segC7, segment_progress := 1
    base_speed_kmh := 30, current_speed_kmh := 30, accumulated_delay_minutes := 0 }

/-- Witness for C6 at concrete inputs: the update step is monotone and a
concrete successful segment advance resets progress to 0. -/
theorem C6_witness :
    simC7.segment_progress ≤ (update_position simC7 60).1.segment_progress ∧
    (advance_to_next_segment simC6 [segC7, segC6b] 0 0 (9 / 10) (21 / 20)).1.segment_progress = 0 := by
  constructor
  · exact (C6_progress_bounds.1 simC7 segC7 60 rfl (by norm_num [simC7])
      (by norm_num [simC7]) (by norm_num [simC7]) (by norm_num)).1
  · exact C6_progress_bounds.2 simC6 [segC7, segC6b] 0 0 (9 / 10) (21 / 20) (by decide)

/-- The progress value produced by one `update_position` step on a given
segment. -/
def new_progress (sim : BusSimulator) (seg : RouteSegment) (dt : ℚ) : ℚ :=
  if 0 < seg.distance_km then
    min 1 (sim.segment_progress + sim.current_speed_kmh * (dt / 3600) / seg.distance_km)
  else sim.segment_progress

theorem update_position_eq (sim : BusSimulator) (seg : RouteSegment) (dt : ℚ)
    (hseg : sim.current_segment = some seg) :
    update_position sim dt =
      ({ sim with segment_progress := new_progress sim seg dt },
       some { location := interpolate_position seg.start_location seg.end_location
                (new_progress sim seg dt)
              next_stop_id := seg.end_stop_id
              distance_to_next_stop_km := (1 - new_progress sim seg dt) * seg.distance_km }) := by
  unfold update_position new_progress
  simp [hseg]

/-- Specification of one `_update_trip_simulation` step for a simulator
with a current segment: a segment transition happens exactly when the
reported distance to the next stop falls below 0.1 km; on transition with
a next segment, `end_stop_id` is appended to `completed_stops` unless
already present and progress resets to 0; on transition without a next
segment only the status write of `_complete_trip` happens and the
simulator is discarded; `completed_stops` is append-only and stays
duplicate-free. -/
def SimStepSpec (trip : TripRec) (sim : BusSimulator) (seg : RouteSegment)
    (segs : List RouteSegment) (dt td od fd fr : ℚ) : Prop :=
  ∃ pos, (update_position sim dt).2 = some pos ∧
    pos.distance_to_next_stop_km =
      (1 - (update_position sim dt).1.segment_progress) * seg.distance_km ∧
    (¬ pos.distance_to_next_stop_km < 1 / 10 →
      (update_trip_simulation trip sim segs dt td od fd fr).1.completed_stops =
        trip.completed_stops ∧
      (update_trip_simulation trip sim segs dt td od fd fr).2 =
        some (update_position sim dt).1) ∧
    (pos.distance_to_next_stop_km < 1 / 10 →
      ((advance_to_next_segment (update_position sim dt).1 segs td od fd fr).2 = true →
        (update_trip_simulation trip sim segs dt td od fd fr).1.completed_stops =
          (if pos.next_stop_id ∈ trip.completed_stops then trip.completed_stops
           else trip.completed_stops ++ [pos.next_stop_id]) ∧
        (update_trip_simulation trip sim segs dt td od fd fr).2 =
          some (advance_to_next_segment (update_position sim dt).1 segs td od fd fr).1 ∧
        (advance_to_next_segment (update_position sim dt).1 segs td od fd fr).1.segment_progress
          = 0) ∧
      ((advance_to_next_segment (update_position sim dt).1 segs td od fd fr).2 = false →
        (update_trip_simulation trip sim segs dt td od fd fr).1.status = TripStatus.completed ∧
        (update_trip_simulation trip sim segs dt td od fd fr).2 = none)) ∧
    (∃ sfx, (update_trip_simulation trip sim segs dt td od fd fr).1.completed_stops =
      trip.completed_stops ++ sfx) ∧
    (trip.completed_stops.Nodup →
      (update_trip_simulation trip sim segs dt td od fd fr).1.completed_stops.Nodup)

theorem simStepSpec_holds (trip : TripRec) (sim : BusSimulator) (seg : RouteSegment)
    (segs : List RouteSegment) (dt td od fd fr : ℚ)
    (hseg : sim.current_segment = some seg) :
    SimStepSpec trip sim seg segs dt td od fd fr := by
  have hu := update_position_eq sim seg dt hseg
  unfold SimStepSpec
  rw [hu]
  refine ⟨_, rfl, rfl, ?_, ?_, ?_, ?_⟩
  · intro hfar
    unfold update_trip_simulation
    rw [hu]
    simp only []
    rw [if_neg hfar]
    exact ⟨rfl, rfl⟩
  · intro hnear
    constructor
    · intro ha2
      unfold update_trip_simulation
      rw [hu]
      simp only []
      rw [if_pos hnear, if_pos ha2]
      refine ⟨rfl, rfl, ?_⟩
      exact advance_progress_zero _ segs td od fd fr ha2
    · intro ha2
      unfold update_trip_simulation
      rw [hu]
      simp only []
      rw [if_pos hnear]
      rw [ha2]
      simp
  · unfold update_trip_simulation
    rw [hu]
    simp only []
    by_cases hnear : (1 - new_progress sim seg dt) * seg.distance_km < 1 / 10
    · rw [if_pos hnear]
      by_cases ha2 : (advance_to_next_segment
          { sim with segment_progress := new_progress sim seg dt } segs td od fd fr).2
      · rw [if_pos ha2]
        by_cases hmem : seg.end_stop_id ∈ trip.completed_stops
        · exact ⟨[], by simp [hmem]⟩
        · exact ⟨[seg.end_stop_id], by simp [hmem]⟩
      · rw [if_neg ha2]
        exact ⟨[], by simp⟩
    · rw [if_neg hnear]
      exact ⟨[], by simp⟩
  · intro hnd
    unfold update_trip_simulation
    rw [hu]
    simp only []
    by_cases hnear : (1 - new_progress sim seg dt) * seg.distance_km < 1 / 10
    · rw [if_pos hnear]
      by_cases ha2 : (advance_to_next_segment
          { sim with segment_progress := new_progress sim seg dt } segs td od fd fr).2
      · rw [if_pos ha2]
        by_cases hmem : seg.end_stop_id ∈ trip.completed_stops
        · simpa [hmem] using hnd
        · simp [hmem, List.nodup_append, hnd]
      · rw [if_neg ha2]
        simpa using hnd
    · rw [if_neg hnear]
      simpa using hnd

/-- Claim C5 (corrected): the segment transition of
`_update_trip_simulation` is triggered by the 100 m proximity test
`distance_to_next_stop_km < 0.1`, not by the progress reaching 1.0; at a
transition the segment's `end_stop_id` is appended to `completed_stops`
only if not already present (append-only, duplicate-free), then the
simulator either advances to the next segment with progress 0 or, with no
next segment, the trip is marked completed and its simulator discarded. -/
theorem C5_amended (trip : TripRec) (sim : BusSimulator) (seg : RouteSegment)
    (segs : List RouteSegment) (dt td od fd fr : ℚ)
    (hseg : sim.current_segment = some seg) :
    SimStepSpec trip sim seg segs dt td od fd fr :=
  simStepSpec_holds trip sim seg segs dt td od fd fr hseg

def simC5 : BusSimulator :=
  { trip_id := "t1", current_segment := some segC7, segment_progress := 71 / 100
    base_speed_kmh := 30, current_speed_kmh := 30, accumulated_delay_minutes := 0 }

def tripC5 : TripRec :=
  { status := TripStatus.in_progress, completed_stops := [], delay_minutes := 0
    next_stop_id := some "B", current_position := none }

theorem simC5_progress : (update_position simC5 60).1.segment_progress = 24 / 25 := by
  rw [update_position_eq simC5 segC7 60 rfl]
  show new_progress simC5 segC7 60 = 24 / 25
  unfold new_progress
  norm_num [simC5, segC7, min_def]

/-- Counterexample to C5 as stated: on a 2 km segment at 30 km/h with
progress 0.71 and a 60 s step, progress becomes 0.96 (never 1.0), yet the
100 m test fires, the stop is appended and the simulator advances — so
the transition does not happen at progress 1.0. -/
theorem C5_counterexample :
    (update_position simC5 60).1.segment_progress = 24 / 25 ∧
    (24 / 25 : ℚ) < 1 ∧
    (update_trip_simulation tripC5 simC5 [segC7, segC6b] 60 0 0 (9 / 10) (21 / 20)).1.completed_stops
      = ["B"] ∧
    (update_trip_simulation tripC5 simC5 [segC7, segC6b] 60 0 0 (9 / 10) (21 / 20)).2
      ≠ some (update_position simC5 60).1 := by
  obtain ⟨pos, hpos, hdist, hfar, hnear, happ, hnd⟩ :=
    simStepSpec_holds tripC5 simC5 segC7 [segC7, segC6b] 60 0 0 (9 / 10) (21 / 20) rfl
  have hposval : pos = { location := interpolate_position segC7.start_location
                           segC7.end_location (new_progress simC5 segC7 60)
                         next_stop_id := segC7.end_stop_id
                         distance_to_next_stop_km :=
                           (1 - new_progress simC5 segC7 60) * segC7.distance_km } := by
    rw [update_position_eq simC5 segC7 60 rfl] at hpos
    exact (Option.some.inj hpos).symm
  have hn : pos.distance_to_next_stop_km < 1 / 10 := by
    rw [hdist, simC5_progress]
    norm_num [segC7]
  have ha2 : (advance_to_next_segment (update_position simC5 60).1
      [segC7, segC6b] 0 0 (9 / 10) (21 / 20)).2 = true := by
    rw [update_position_eq simC5 segC7 60 rfl]
    decide
  obtain ⟨hcs, hsnd, hprog0⟩ := (hnear hn).1 ha2
  refine ⟨simC5_progress, by norm_num, ?_, ?_⟩
  · rw [hcs, hposval]
    simp [tripC5, segC7]
  · rw [hsnd]
    intro heq
    have h1 : (advance_to_next_segment (update_position simC5 60).1
        [segC7, segC6b] 0 0 (9 / 10) (21 / 20)).1 = (update_position simC5 60).1 :=
      Option.some.inj heq
    rw [h1, simC5_progress] at hprog0
    norm_num at hprog0

/-- Witness for C5: the amended step specification instantiated at the
concrete counterexample inputs. -/
theorem C5_witness :
    SimStepSpec tripC5 simC5 segC7 [segC7, segC6b] 60 0 0 (9 / 10) (21 / 20) :=
  C5_amended tripC5 simC5 segC7 [segC7, segC6b] 60 0 0 (9 / 10) (21 / 20) rfl

/-- Stop document, reduced to the field `_get_route_segments` reads. -/
structure StopDoc where
  location : Coordinate
  deriving DecidableEq, Repr

/-- Route document, reduced to the field `_get_route_segments` reads. -/
structure RouteDoc where
  stops : List String
  deriving DecidableEq, Repr

/-- `SimulationEngine._get_route_segments` (cache aside): `route` is the
result of the route lookup, `stops_data` the stop lookup table built from
the stops query, `dist` stands for the haversine distance on coordinates
(kept abstract — the claims here do not depend on its values) and
`default_speed` for `settings.DEFAULT_BUS_SPEED`.  A consecutive stop pair
is skipped when either lookup misses; a missing route yields the empty
list. -/
def get_route_segments (route : Option RouteDoc) (stops_data : String → Option StopDoc)
    (dist : Coordinate → Coordinate → ℚ) (default_speed : ℚ) : List RouteSegment :=
  match route with
  | none => []
  | some r =>
    (List.range (r.stops.length - 1)).filterMap (fun i =>
      (r.stops[i]?).bind (fun sid =>
        (r.stops[i + 1]?).bind (fun eid =>
          (stops_data sid).bind (fun start_stop =>
            (stops_data eid).map (fun end_stop =>
              let d := dist start_stop.location end_stop.location
              { start_stop_id := sid
                end_stop_id := eid
                distance_km := d
                expected_duration_minutes := d / default_speed * 60
                start_location := start_stop.location
                end_location := end_stop.location })))))

/-- `SimulationEngine._create_simulator`: with a non-empty segment list the
trip gets a fresh simulator on the first segment and its status is set to
in_progress; with an empty list nothing at all happens. -/
def create_simulator (sims : String → Option BusSimulator) (trip_id : String)
    (segs : List RouteSegment) (status : TripStatus) (default_speed : ℚ) :
    (String → Option BusSimulator) × TripStatus :=
  match segs with
  | [] => (sims, status)
  | s0 :: _ =>
    (upd sims trip_id (some
      { trip_id := trip_id
        current_segment := some s0
        segment_progress := 0
        base_speed_kmh := default_speed
        current_speed_kmh := default_speed
        accumulated_delay_minutes := 0 }),
     TripStatus.in_progress)

/-- One iteration of the `_update_all_trips` loop, restricted to the
simulator-creation phase: create a simulator only for a trip that does not
have one yet. -/
def tick_step (segsOf : String → List RouteSegment) (default_speed : ℚ)
    (m : String → Option BusSimulator) (t : String × String) :
    String → Option BusSimulator :=
  match m t.1 with
  | none => (create_simulator m t.1 (segsOf t.2) TripStatus.scheduled default_speed).1
  | some _ => m

/-- The simulator-creation phase of one `_update_all_trips` tick over the
list of active trips (`trip_id`, `route_id` pairs). -/
def tick_create (sims : String → Option BusSimulator)
    (trips : List (String × String)) (segsOf : String → List RouteSegment)
    (default_speed : ℚ) : String → Option BusSimulator :=
  trips.foldl (tick_step segsOf default_speed) sims

theorem create_simulator_apply_other (sims : String → Option BusSimulator)
    (tid : String) (segs : List RouteSegment) (st : TripStatus) (sp : ℚ)
    (x : String) (hx : x ≠ tid) :
    (create_simulator sims tid segs st sp).1 x = sims x := by
  cases segs with
  | nil => rfl
  | cons s0 rest => simp [create_simulator, upd, hx]

theorem tick_step_apply_other (segsOf : String → List RouteSegment) (sp : ℚ)
    (m : String → Option BusSimulator) (t : String × String) (x : String)
    (hx : x ≠ t.1) : tick_step segsOf sp m t x = m x := by
  unfold tick_step
  cases m t.1 with
  | none => exact create_simulator_apply_other m t.1 (segsOf t.2) TripStatus.scheduled sp x hx
  | some _ => rfl

theorem tick_create_apply_not_mem (segsOf : String → List RouteSegment) (sp : ℚ) :
    ∀ (trips : List (String × String)) (m : String → Option BusSimulator) (x : String),
    x ∉ trips.map Prod.fst → tick_create m trips segsOf sp x = m x := by
  intro trips
  induction trips with
  | nil => intro m x _; rfl
  | cons p ts ih =>
    intro m x hx
    simp only [List.map_cons, List.mem_cons, not_or] at hx
    show tick_create (tick_step segsOf sp m p) ts segsOf sp x = m x
    rw [ih (tick_step segsOf sp m p) x hx.2]
    exact tick_step_apply_other segsOf sp m p x hx.1

theorem get_route_segments_nil_iff (r : RouteDoc) (sd : String → Option StopDoc)
    (dist : Coordinate → Coordinate → ℚ) (sp : ℚ) :
    get_route_segments (some r) sd dist sp = [] ↔
      ∀ i sid eid, r.stops[i]? = some sid → r.stops[i + 1]? = some eid →
        sd sid = none ∨ sd eid = none := by
  unfold get_route_segments
  rw [List.filterMap_eq_nil_iff]
  constructor
  · intro h i sid eid hsid heid
    have hlt : i + 1 < r.stops.length := by
      rcases List.getElem?_eq_some.mp heid with ⟨hl, _⟩
      exact hl
    have hi : i ∈ List.range (r.stops.length - 1) := by
      rw [List.mem_range]
      exact Nat.lt_sub_of_add_lt hlt
    have hf := h i hi
    rw [hsid, heid] at hf
    simp only [Option.some_bind] at hf
    cases h1 : sd sid with
    | none => exact Or.inl rfl
    | some s1 =>
      cases h2 : sd eid with
      | none => exact Or.inr rfl
      | some s2 =>
        rw [h1, h2] at hf
        simp at hf
  · intro h i hi
    rw [List.mem_range] at hi
    have hi1 : i + 1 < r.stops.length := Nat.add_lt_of_lt_sub hi
    have hi0 : i < r.stops.length := Nat.lt_of_succ_lt hi1
    have hsid : r.stops[i]? = some r.stops[i] := List.getElem?_eq_getElem hi0
    have heid : r.stops[i + 1]? = some r.stops[i + 1] := List.getElem?_eq_getElem hi1
    rw [hsid, heid]
    simp only [Option.some_bind]
    rcases h i (r.stops[i]) (r.stops[i + 1]) hsid heid with hnone | hnone
    · rw [hnone]
      rfl
    · rw [hnone]
      cases sd (r.stops[i]) <;> rfl

/-- Claim C9 (corrected): geometry resolution yields no simulator exactly
when the route lookup misses or no two consecutive stops both resolve; a
single missed stop lookup only drops the segments adjacent to it and does
not by itself cause a failure.  With an empty segment list
`_create_simulator` changes nothing (the trip is skipped, no status
write), and the per-trip creation outcome within a tick depends only on
that trip's own geometry — one trip's failure never aborts the tick for
the others. -/
theorem C9_amended (segsOf : String → List RouteSegment) (sp : ℚ) :
    (∀ (r : RouteDoc) (sd : String → Option StopDoc)
        (dist : Coordinate → Coordinate → ℚ) (sp2 : ℚ),
      get_route_segments (some r) sd dist sp2 = [] ↔
        ∀ i sid eid, r.stops[i]? = some sid → r.stops[i + 1]? = some eid →
          sd sid = none ∨ sd eid = none) ∧
    (∀ (sd : String → Option StopDoc) (dist : Coordinate → Coordinate → ℚ) (sp2 : ℚ),
      get_route_segments none sd dist sp2 = []) ∧
    (∀ (sims : String → Option BusSimulator) (tid : String) (st : TripStatus) (sp2 : ℚ),
      create_simulator sims tid [] st sp2 = (sims, st)) ∧
    (∀ (sims : String → Option BusSimulator) (tid : String) (s0 : RouteSegment)
        (rest : List RouteSegment) (st : TripStatus) (sp2 : ℚ),
      (create_simulator sims tid (s0 :: rest) st sp2).1 tid =
        some { trip_id := tid, current_segment := some s0, segment_progress := 0
               base_speed_kmh := sp2, current_speed_kmh := sp2
               accumulated_delay_minutes := 0 } ∧
      (create_simulator sims tid (s0 :: rest) st sp2).2 = TripStatus.in_progress) ∧
    (∀ (trips : List (String × String)) (m : String → Option BusSimulator) (t r : String),
      (t, r) ∈ trips → m t = none → (trips.map Prod.fst).Nodup →
      (tick_create m trips segsOf sp t = none ↔ segsOf r = [])) := by
  refine ⟨get_route_segments_nil_iff, fun _ _ _ => rfl, fun _ _ _ _ => rfl, ?_, ?_⟩
  · intro sims tid s0 rest st sp2
    exact ⟨by simp [create_simulator, upd], rfl⟩
  · intro trips
    induction trips with
    | nil => intro m t r hmem; simp at hmem
    | cons p ts ih =>
      intro m t r hmem hmt hnd
      rw [List.map_cons, List.nodup_cons] at hnd
      rcases List.mem_cons.mp hmem with heq | hmem2
      · subst heq
        show tick_create (tick_step segsOf sp m (t, r)) ts segsOf sp t = none ↔ segsOf r = []
        rw [tick_create_apply_not_mem segsOf sp ts _ t hnd.1]
        unfold tick_step
        simp only
        rw [hmt]
        cases hsegs : segsOf r with
        | nil => simp [create_simulator, hmt]
        | cons s0 rest => simp [create_simulator, upd]
      · have htp : t ≠ p.1 := by
          intro h
          exact hnd.1 (h ▸ List.mem_map_of_mem Prod.fst hmem2)
        show tick_create (tick_step segsOf sp m p) ts segsOf sp t = none ↔ segsOf r = []
        apply ih (tick_step segsOf sp m p) t r hmem2 ?_ hnd.2
        rw [tick_step_apply_other segsOf sp m p t htp]
        exact hmt

def sdC9 : String → Option StopDoc := fun s =>
  if s = "A" then some { location := { latitude := 0, longitude := 0 } }
  else if s = "C" then some { location := { latitude := 0, longitude := 2 } }
  else if s = "D" then some { location := { latitude := 0, longitude := 3 } }
  else none

def routeC9 : RouteDoc := { stops := ["A", "B", "C", "D"] }

/-- Any computable stand-in for the haversine distance (the geometry claims
do not depend on the distance values). -/
def distOne : Coordinate → Coordinate → ℚ := fun _ _ => 1

/-- Counterexample to C9 as stated: the stop lookup for "B" misses, yet the
route still resolves to a non-empty segment list (the C→D segment) and the
trip does get a simulator — a missed stop lookup does not imply failure. -/
theorem C9_counterexample :
    sdC9 "B" = none ∧
    get_route_segments (some routeC9) sdC9 distOne 30 ≠ [] ∧
    (create_simulator (fun _ => none) "t1"
        (get_route_segments (some routeC9) sdC9 distOne 30)
        TripStatus.scheduled 30).1 "t1" ≠ none := by
  refine ⟨rfl, ?_, ?_⟩ <;> decide

def segsOfC9 : String → List RouteSegment := fun r => if r = "R" then [segC7] else []

/-- Witness for C9: the tick-independence part applied at a concrete trip
list where one trip's geometry is empty, plus the empty-route case. -/
theorem C9_witness :
    (tick_create (fun _ => none) [("t1", "R"), ("t2", "X")] segsOfC9 30 "t2" = none ↔
      segsOfC9 "X" = []) ∧
    get_route_segments none sdC9 distOne 30 = [] := by
  constructor
  · exact (C9_amended segsOfC9 30).2.2.2.2 [("t1", "R"), ("t2", "X")] (fun _ => none)
      "t2" "X" (by simp) rfl (by simp)
  · exact (C9_amended segsOfC9 30).2.1 sdC9 distOne 30

/-- A row of the notifications collection, reduced to the fields
`_create_delay_notification` reads and writes (timestamps and the id
omitted). -/
structure NotifRow where
  user_id : String
  trip_id : String
  type : String
  route_id : String
  priority : String
  deriving DecidableEq, Repr

/-- The query filter of the dedup check: the `find_one` on
(user_id, trip_id, type = "delay"). -/
def delayMatches (u t : String) (n : NotifRow) : Bool :=
  n.user_id == u && n.trip_id == t && n.type == "delay"

/-- `RealTimeService._create_delay_notification`: iterate the active
subscriptions of the route (given as the list of their user ids, in query
order); for each user, if a (user, trip, "delay") row already exists do
nothing for that user, otherwise insert the row and forward an alert to
the WebSocket dispatcher.  Returns the notifications collection after the
call and the list of (user_id, trip_id) alerts emitted. -/
def create_delay_notification (notifs : List NotifRow) (subs : List String)
    (trip_id route_id : String) (delay_minutes : ℚ) :
    List NotifRow × List (String × String) :=
  match subs with
  | [] => (notifs, [])
  | u :: rest =>
    if notifs.any (delayMatches u trip_id) then
      create_delay_notification notifs rest trip_id route_id delay_minutes
    else
      let row : NotifRow :=
        { user_id := u
          trip_id := trip_id
          type := "delay"
          route_id := route_id
          priority := if 15 < delay_minutes then "high" else "normal" }
      let p := create_delay_notification (notifs ++ [row]) rest trip_id route_id delay_minutes
      (p.1, (u, trip_id) :: p.2)

/-- A sequence of monitor-loop ticks that breach the delay threshold: each
call carries the subscriber list and the (trip, route, delay) of the
breach. -/
def run_delay_ticks (notifs : List NotifRow)
    (calls : List (List String × String × String × ℚ)) : List NotifRow :=
  calls.foldl (fun ns c => (create_delay_notification ns c.1 c.2.1 c.2.2.1 c.2.2.2).1) notifs

theorem create_delay_count (u t : String) :
    ∀ (subs : List String) (notifs : List NotifRow) (tr r : String) (d : ℚ),
      (List.countP (delayMatches u t)
          (create_delay_notification notifs subs tr r d).1 ≤
        max (List.countP (delayMatches u t) notifs) 1) ∧
      (1 ≤ List.countP (delayMatches u t) notifs →
        List.countP (delayMatches u t) (create_delay_notification notifs subs tr r d).1 =
          List.countP (delayMatches u t) notifs ∧
        (u, t) ∉ (create_delay_notification notifs subs tr r d).2) := by
  intro subs
  induction subs with
  | nil =>
    intro notifs tr r d
    constructor
    · exact le_max_left _ _
    · intro _
      exact ⟨rfl, by simp [create_delay_notification]⟩
  | cons v rest ih =>
    intro notifs tr r d
    unfold create_delay_notification
    by_cases hany : notifs.any (delayMatches v tr) = true
    · rw [if_pos hany]
      exact ih notifs tr r d
    · rw [if_neg hany]
      set row : NotifRow :=
        { user_id := v, trip_id := tr, type := "delay", route_id := r
          priority := if 15 < d then "high" else "normal" } with hrowdef
      have hiff : delayMatches u t row = true ↔ (v = u ∧ tr = t) := by
        rw [hrowdef]
        simp [delayMatches, Bool.and_eq_true, beq_iff_eq]
      have hcount2 : List.countP (delayMatches u t) (notifs ++ [row]) =
          List.countP (delayMatches u t) notifs +
            (if delayMatches u t row then 1 else 0) := by
        simp [List.countP_append, List.countP_cons]
      by_cases huv : v = u ∧ tr = t
      · have hmatch : delayMatches u t row = true := hiff.2 huv
        have hzero : List.countP (delayMatches u t) notifs = 0 := by
          by_contra hne
          have hpos : 0 < List.countP (delayMatches u t) notifs := Nat.pos_of_ne_zero hne
          rw [List.countP_pos_iff] at hpos
          obtain ⟨a, ha, hpa⟩ := hpos
          apply hany
          rw [List.any_eq_true]
          refine ⟨a, ha, ?_⟩
          rw [huv.1, huv.2]
          exact hpa
        constructor
        · calc List.countP (delayMatches u t)
                (create_delay_notification (notifs ++ [row]) rest tr r d).1
              ≤ max (List.countP (delayMatches u t) (notifs ++ [row])) 1 := (ih _ tr r d).1
            _ = 1 := by rw [hcount2, hzero, hmatch]; simp
            _ ≤ max (List.countP (delayMatches u t) notifs) 1 := le_max_right _ _
        · intro hge
          rw [hzero] at hge
          omega
      · have hmatch : delayMatches u t row = false := by
          rw [Bool.eq_false_iff]
          intro hc
          exact huv (hiff.1 hc)
        have hsame : List.countP (delayMatches u t) (notifs ++ [row]) =
            List.countP (delayMatches u t) notifs := by
          rw [hcount2, hmatch]
          simp
        constructor
        · calc List.countP (delayMatches u t)
                (create_delay_notification (notifs ++ [row]) rest tr r d).1
              ≤ max (List.countP (delayMatches u t) (notifs ++ [row])) 1 := (ih _ tr r d).1
            _ = max (List.countP (delayMatches u t) notifs) 1 := by rw [hsame]
        · intro hge
          have hge2 : 1 ≤ List.countP (delayMatches u t) (notifs ++ [row]) := by
            rw [hsame]; exact hge
          refine ⟨by rw [(ih _ tr r d).2 hge2 |>.1, hsame], ?_⟩
          intro hmem
          rcases List.mem_cons.mp hmem with heq | hmem2
          · exact huv ⟨(congrArg Prod.fst heq).symm, (congrArg Prod.snd heq).symm⟩
          · exact ((ih _ tr r d).2 hge2).2 hmem2

/-- Claim C2 (confirmed): starting from a collection holding at most one
(u, t, "delay") row, any number of threshold-breaching ticks leaves at
most one such row; and whenever such a row already exists, a call for
trip t changes nothing for user u — no new row, no forwarded alert. -/
theorem C2_delay_dedup (notifs : List NotifRow)
    (calls : List (List String × String × String × ℚ)) (u t : String)
    (h : List.countP (delayMatches u t) notifs ≤ 1) :
    List.countP (delayMatches u t) (run_delay_ticks notifs calls) ≤ 1 ∧
    (∀ (subs : List String) (r : String) (d : ℚ),
      1 ≤ List.countP (delayMatches u t) notifs →
      List.countP (delayMatches u t) (create_delay_notification notifs subs t r d).1 =
        List.countP (delayMatches u t) notifs ∧
      (u, t) ∉ (create_delay_notification notifs subs t r d).2) := by
  constructor
  · induction calls generalizing notifs with
    | nil => exact h
    | cons c cs ih =>
      show List.countP (delayMatches u t)
        (run_delay_ticks (create_delay_notification notifs c.1 c.2.1 c.2.2.1 c.2.2.2).1 cs) ≤ 1
      apply ih
      calc List.countP (delayMatches u t)
            (create_delay_notification notifs c.1 c.2.1 c.2.2.1 c.2.2.2).1
          ≤ max (List.countP (delayMatches u t) notifs) 1 :=
            (create_delay_count u t c.1 notifs c.2.1 c.2.2.1 c.2.2.2).1
        _ ≤ 1 := by omega
  · intro subs r d hge
    exact (create_delay_count u t subs notifs t r d).2 hge

/-- Witness for C2: two breaching ticks for the same trip, the user twice
in the subscriber list — still at most one delay row. -/
theorem C2_witness :
    List.countP (delayMatches "u1" "t1")
      (run_delay_ticks [] [(["u1", "u1"], "t1", "r1", 7), (["u1"], "t1", "r1", 9)]) ≤ 1 :=
  (C2_delay_dedup [] [(["u1", "u1"], "t1", "r1", 7), (["u1"], "t1", "r1", 9)]
    "u1" "t1" (by simp)).1

/-- Per-connection record kept in `connected_clients`, from the
`client_info` dict built by the `connect` handler (`connected_at`
omitted: wall-clock time).  `user_id` and `authenticated` are set
together when token verification succeeds and yields a subject. -/
structure ClientInfo where
  user_id : Option String
  authenticated : Bool
  subscribed_routes : Finset String
  subscribed_trips : Finset String
  deriving DecidableEq

/-- The mutable state of `WebSocketManager`: the client map and the three
subscription indices.  A key mapped to `none` is absent from the dict. -/
structure WSState where
  connected_clients : String → Option ClientInfo
  user_sessions : String → Option (Finset String)
  route_subscribers : String → Option (Finset String)
  trip_subscribers : String → Option (Finset String)

/-- The fresh manager state: all dicts empty. -/
def emptyWS : WSState :=
  { connected_clients := fun _ => none
    user_sessions := fun _ => none
    route_subscribers := fun _ => none
    trip_subscribers := fun _ => none }

/-- The `if key not in index: index[key] = set(); index[key].add(sid)`
idiom used by connect and the subscribe handlers. -/
def addToBucket (idx : String → Option (Finset String)) (k sid : String) :
    String → Option (Finset String) :=
  upd idx k (some (insert sid ((idx k).getD ∅)))

/-- The `if key in index: index[key].discard(sid); if not index[key]:
del index[key]` idiom used by the unsubscribe handlers and disconnect. -/
def removeFromBucket (idx : String → Option (Finset String)) (k sid : String) :
    String → Option (Finset String) :=
  match idx k with
  | none => idx
  | some b =>
    if b.erase sid = ∅ then upd idx k none else upd idx k (some (b.erase sid))

/-- The disconnect cascade over all keys of one of the connection's
subscription sets. -/
def removeFromBuckets (idx : String → Option (Finset String)) (keys : Finset String)
    (sid : String) : String → Option (Finset String) :=
  fun k =>
    if k ∈ keys then
      match idx k with
      | none => none
      | some b => if b.erase sid = ∅ then none else some (b.erase sid)
    else idx k

/-- The socket events handled by `WebSocketManager` that mutate the
registry.  For `connect`, `auth` is the outcome of token verification:
`some u` when `verify_token` succeeded and the payload carried the
subject `u`, `none` otherwise (no token, failed verification, missing
subject). -/
inductive WSOp where
  | connect (sid : String) (auth : Option String)
  | disconnect (sid : String)
  | subscribe_route (sid route_id : String)
  | unsubscribe_route (sid route_id : String)
  | subscribe_trip (sid trip_id : String)
  | unsubscribe_trip (sid trip_id : String)
  deriving DecidableEq

/-- One event-handler execution.  Faithful to the handler bodies,
including their behaviour on unknown session ids: a subscribe for an
unknown sid still mutates the index bucket (the later
`client_info["subscribed_*"]` raises `KeyError`, which the handler's
`except` swallows after the bucket mutation), and a disconnect for an
unknown sid mutates nothing (its final `del` raises before any change). -/
def step (s : WSState) : WSOp → WSState
  | WSOp.connect sid auth =>
    { s with
        user_sessions := auth.elim s.user_sessions
          (fun u => addToBucket s.user_sessions u sid)
        connected_clients := upd s.connected_clients sid (some
          { user_id := auth
            authenticated := auth.isSome
            subscribed_routes := ∅
            subscribed_trips := ∅ }) }
  | WSOp.disconnect sid =>
    (s.connected_clients sid).elim s (fun ci =>
      { connected_clients := upd s.connected_clients sid none
        user_sessions := ci.user_id.elim s.user_sessions
          (fun u => removeFromBucket s.user_sessions u sid)
        route_subscribers := removeFromBuckets s.route_subscribers ci.subscribed_routes sid
        trip_subscribers := removeFromBuckets s.trip_subscribers ci.subscribed_trips sid })
  | WSOp.subscribe_route sid route_id =>
    { s with
        route_subscribers := addToBucket s.route_subscribers route_id sid
        connected_clients := (s.connected_clients sid).elim s.connected_clients
          (fun ci => upd s.connected_clients sid
            (some { ci with subscribed_routes := insert route_id ci.subscribed_routes })) }
  | WSOp.unsubscribe_route sid route_id =>
    { s with
        route_subscribers := removeFromBucket s.route_subscribers route_id sid
        connected_clients := (s.connected_clients sid).elim s.connected_clients
          (fun ci => upd s.connected_clients sid
            (some { ci with subscribed_routes := ci.subscribed_routes.erase route_id })) }
  | WSOp.subscribe_trip sid trip_id =>
    { s with
        trip_subscribers := addToBucket s.trip_subscribers trip_id sid
        connected_clients := (s.connected_clients sid).elim s.connected_clients
          (fun ci => upd s.connected_clients sid
            (some { ci with subscribed_trips := insert trip_id ci.subscribed_trips })) }
  | WSOp.unsubscribe_trip sid trip_id =>
    { s with
        trip_subscribers := removeFromBucket s.trip_subscribers trip_id sid
        connected_clients := (s.connected_clients sid).elim s.connected_clients
          (fun ci => upd s.connected_clients sid
            (some { ci with subscribed_trips := ci.subscribed_trips.erase trip_id })) }

/-- Run a sequence of handler executions. -/
def run : WSState → List WSOp → WSState
  | s, [] => s
  | s, op :: ops => run (step s op) ops

/-- The conditions the socket.io transport guarantees for a dispatched
event: a connect carries a fresh session id, and subscribe/unsubscribe
events only arrive from currently connected sessions.  Disconnects are
unrestricted. -/
def opOK (s : WSState) : WSOp → Prop
  | WSOp.connect sid _ => s.connected_clients sid = none
  | WSOp.disconnect _ => True
  | WSOp.subscribe_route sid _ => s.connected_clients sid ≠ none
  | WSOp.unsubscribe_route sid _ => s.connected_clients sid ≠ none
  | WSOp.subscribe_trip sid _ => s.connected_clients sid ≠ none
  | WSOp.unsubscribe_trip sid _ => s.connected_clients sid ≠ none

/-- A sequence of events each dispatched under the transport guarantees. -/
def okSeq : WSState → List WSOp → Prop
  | _, [] => True
  | s, op :: ops => opOK s op ∧ okSeq (step s op) ops

/-- The multiset of sends performed by `emit_trip_update` in the absence
of failures: one send per member of the trip bucket, then one send per
member of the route bucket (a missing bucket contributes nothing). -/
def tripUpdateSends (s : WSState) (trip_id route_id : String) : Multiset String :=
  ((s.trip_subscribers trip_id).getD ∅).val + ((s.route_subscribers route_id).getD ∅).val

/-- The multiset of sends performed by `emit_notification` for a user:
one send per session in the user's bucket. -/
def emitNotificationSends (s : WSState) (user_id : String) : Multiset String :=
  ((s.user_sessions user_id).getD ∅).val

theorem addToBucket_same (idx : String → Option (Finset String)) (k sid : String) :
    addToBucket idx k sid k = some (insert sid ((idx k).getD ∅)) :=
  upd_same idx k _

theorem addToBucket_other (idx : String → Option (Finset String)) (k sid k' : String)
    (h : k' ≠ k) : addToBucket idx k sid k' = idx k' :=
  upd_other idx k _ k' h

theorem removeFromBucket_other (idx : String → Option (Finset String)) (k sid k' : String)
    (h : k' ≠ k) : removeFromBucket idx k sid k' = idx k' := by
  unfold removeFromBucket
  cases idx k with
  | none => rfl
  | some b =>
    dsimp only
    split
    · exact upd_other idx k none k' h
    · exact upd_other idx k _ k' h

theorem removeFromBucket_same_none (idx : String → Option (Finset String)) (k sid : String)
    (h : idx k = none) : removeFromBucket idx k sid k = none := by
  unfold removeFromBucket
  rw [h]
  exact h

theorem removeFromBucket_same_some (idx : String → Option (Finset String)) (k sid : String)
    (b : Finset String) (h : idx k = some b) :
    removeFromBucket idx k sid k =
      (if b.erase sid = ∅ then none else some (b.erase sid)) := by
  unfold removeFromBucket
  rw [h]
  dsimp only
  split
  · exact upd_same idx k none
  · exact upd_same idx k _

theorem removeFromBuckets_not_mem (idx : String → Option (Finset String))
    (keys : Finset String) (sid k : String) (h : k ∉ keys) :
    removeFromBuckets idx keys sid k = idx k := by
  unfold removeFromBuckets
  rw [if_neg h]

theorem removeFromBuckets_mem_none (idx : String → Option (Finset String))
    (keys : Finset String) (sid k : String) (h : k ∈ keys) (hidx : idx k = none) :
    removeFromBuckets idx keys sid k = none := by
  unfold removeFromBuckets
  rw [if_pos h, hidx]

theorem removeFromBuckets_mem_some (idx : String → Option (Finset String))
    (keys : Finset String) (sid k : String) (b : Finset String)
    (h : k ∈ keys) (hidx : idx k = some b) :
    removeFromBuckets idx keys sid k =
      (if b.erase sid = ∅ then none else some (b.erase sid)) := by
  unfold removeFromBuckets
  rw [if_pos h, hidx]

/-- Forward index invariant: every bucket of `idx` is non-empty (empty
buckets are deleted immediately) and each of its members is a connected
client whose own subscription set (`proj`) contains the bucket key. -/
def bucketInvF (idx : String → Option (Finset String))
    (clients : String → Option ClientInfo) (proj : ClientInfo → Finset String) : Prop :=
  ∀ k b, idx k = some b → b ≠ ∅ ∧
    ∀ sid ∈ b, ∃ ci, clients sid = some ci ∧ k ∈ proj ci

/-- Backward index invariant: every key in a connected client's own
subscription set has a bucket in `idx` containing that client. -/
def bucketInvB (idx : String → Option (Finset String))
    (clients : String → Option ClientInfo) (proj : ClientInfo → Finset String) : Prop :=
  ∀ sid ci, clients sid = some ci → ∀ k ∈ proj ci, ∃ b, idx k = some b ∧ sid ∈ b

/-- User-session invariant: every session bucket is non-empty and each
member is a connected client authenticated as the bucket's user. -/
def sessionInvOn (us : String → Option (Finset String))
    (clients : String → Option ClientInfo) : Prop :=
  ∀ u b, us u = some b → b ≠ ∅ ∧
    ∀ sid ∈ b, ∃ ci, clients sid = some ci ∧
      ci.user_id = some u ∧ ci.authenticated = true

/-- The full registry invariant of the manager state. -/
def WSInv (s : WSState) : Prop :=
  bucketInvF s.route_subscribers s.connected_clients ClientInfo.subscribed_routes ∧
  bucketInvB s.route_subscribers s.connected_clients ClientInfo.subscribed_routes ∧
  bucketInvF s.trip_subscribers s.connected_clients ClientInfo.subscribed_trips ∧
  bucketInvB s.trip_subscribers s.connected_clients ClientInfo.subscribed_trips ∧
  sessionInvOn s.user_sessions s.connected_clients

theorem bucketInvF_add (idx : String → Option (Finset String))
    (clients : String → Option ClientInfo) (proj : ClientInfo → Finset String)
    (sid k : String) (ci ci2 : ClientInfo)
    (hci : clients sid = some ci) (hproj : proj ci2 = insert k (proj ci))
    (hF : bucketInvF idx clients proj) :
    bucketInvF (addToBucket idx k sid) (upd clients sid (some ci2)) proj := by
  intro k' b' hb'
  by_cases hk : k' = k
  · subst hk
    rw [addToBucket_same] at hb'
    injection hb' with hb'
    subst hb'
    refine ⟨Finset.insert_ne_empty _ _, fun m hm => ?_⟩
    rcases Finset.mem_insert.mp hm with rfl | hm2
    · exact ⟨ci2, upd_same _ _ _, by rw [hproj]; exact Finset.mem_insert_self _ _⟩
    · cases hidx : idx k' with
      | none => rw [hidx] at hm2; simp at hm2
      | some b0 =>
        rw [hidx] at hm2
        simp only [Option.getD_some] at hm2
        obtain ⟨cm, hcm, hkm⟩ := (hF k' b0 hidx).2 m hm2
        by_cases hms : m = sid
        · subst hms
          exact ⟨ci2, upd_same _ _ _, by rw [hproj]; exact Finset.mem_insert_self _ _⟩
        · exact ⟨cm, by rw [upd_other _ _ _ _ hms]; exact hcm, hkm⟩
  · rw [addToBucket_other _ _ _ _ hk] at hb'
    obtain ⟨hne, hmem⟩ := hF k' b' hb'
    refine ⟨hne, fun m hm => ?_⟩
    obtain ⟨cm, hcm, hkm⟩ := hmem m hm
    by_cases hms : m = sid
    · subst hms
      rw [hci] at hcm
      injection hcm with hcm
      subst hcm
      exact ⟨ci2, upd_same _ _ _, by rw [hproj]; exact Finset.mem_insert_of_mem hkm⟩
    · exact ⟨cm, by rw [upd_other _ _ _ _ hms]; exact hcm, hkm⟩

theorem bucketInvB_add (idx : String → Option (Finset String))
    (clients : String → Option ClientInfo) (proj : ClientInfo → Finset String)
    (sid k : String) (ci ci2 : ClientInfo)
    (hci : clients sid = some ci) (hproj : proj ci2 = insert k (proj ci))
    (hB : bucketInvB idx clients proj) :
    bucketInvB (addToBucket idx k sid) (upd clients sid (some ci2)) proj := by
  intro m cm hcm k' hk'
  by_cases hms : m = sid
  · subst hms
    rw [upd_same] at hcm
    injection hcm with hcm
    subst hcm
    rw [hproj] at hk'
    rcases Finset.mem_insert.mp hk' with rfl | hk2
    · exact ⟨_, addToBucket_same idx k' m, Finset.mem_insert_self _ _⟩
    · by_cases hkk : k' = k
      · subst hkk
        exact ⟨_, addToBucket_same idx k' m, Finset.mem_insert_self _ _⟩
      · obtain ⟨b0, hb0, hmb0⟩ := hB m ci hci k' hk2
        exact ⟨b0, by rw [addToBucket_other _ _ _ _ hkk]; exact hb0, hmb0⟩
  · rw [upd_other _ _ _ _ hms] at hcm
    obtain ⟨b0, hb0, hmb0⟩ := hB m cm hcm k' hk'
    by_cases hkk : k' = k
    · subst hkk
      refine ⟨_, addToBucket_same idx k' sid, ?_⟩
      rw [hb0]
      exact Finset.mem_insert_of_mem hmb0
    · exact ⟨b0, by rw [addToBucket_other _ _ _ _ hkk]; exact hb0, hmb0⟩

theorem bucketInvF_client (idx : String → Option (Finset String))
    (clients : String → Option ClientInfo) (proj : ClientInfo → Finset String)
    (sid : String) (ci ci2 : ClientInfo)
    (hci : clients sid = some ci) (hsub : proj ci ⊆ proj ci2)
    (hF : bucketInvF idx clients proj) :
    bucketInvF idx (upd clients sid (some ci2)) proj := by
  intro k b hb
  obtain ⟨hne, hmem⟩ := hF k b hb
  refine ⟨hne, fun m hm => ?_⟩
  obtain ⟨cm, hcm, hkm⟩ := hmem m hm
  by_cases hms : m = sid
  · subst hms
    rw [hci] at hcm
    injection hcm with hcm
    subst hcm
    exact ⟨ci2, upd_same _ _ _, hsub hkm⟩
  · exact ⟨cm, by rw [upd_other _ _ _ _ hms]; exact hcm, hkm⟩

theorem bucketInvB_client (idx : String → Option (Finset String))
    (clients : String → Option ClientInfo) (proj : ClientInfo → Finset String)
    (sid : String) (ci ci2 : ClientInfo)
    (hci : clients sid = some ci) (heq : proj ci2 = proj ci)
    (hB : bucketInvB idx clients proj) :
    bucketInvB idx (upd clients sid (some ci2)) proj := by
  intro m cm hcm k hk
  by_cases hms : m = sid
  · subst hms
    rw [upd_same] at hcm
    injection hcm with hcm
    subst hcm
    rw [heq] at hk
    exact hB m ci hci k hk
  · rw [upd_other _ _ _ _ hms] at hcm
    exact hB m cm hcm k hk

theorem bucketInvF_remove (idx : String → Option (Finset String))
    (clients : String → Option ClientInfo) (proj : ClientInfo → Finset String)
    (sid k : String) (ci ci2 : ClientInfo)
    (hci : clients sid = some ci) (hproj : proj ci2 = (proj ci).erase k)
    (hF : bucketInvF idx clients proj) :
    bucketInvF (removeFromBucket idx k sid) (upd clients sid (some ci2)) proj := by
  intro k' b' hb'
  by_cases hk : k' = k
  · subst hk
    cases hidx : idx k' with
    | none =>
      rw [removeFromBucket_same_none idx k' sid hidx] at hb'
      exact Option.noConfusion hb'
    | some b0 =>
      rw [removeFromBucket_same_some idx k' sid b0 hidx] at hb'
      by_cases hemp : b0.erase sid = ∅
      · rw [if_pos hemp] at hb'
        exact Option.noConfusion hb'
      · rw [if_neg hemp] at hb'
        injection hb' with hb'
        subst hb'
        refine ⟨hemp, fun m hm => ?_⟩
        obtain ⟨hmne, hmb⟩ := Finset.mem_erase.mp hm
        obtain ⟨cm, hcm, hkm⟩ := (hF k' b0 hidx).2 m hmb
        exact ⟨cm, by rw [upd_other _ _ _ _ hmne]; exact hcm, hkm⟩
  · rw [removeFromBucket_other _ _ _ _ hk] at hb'
    obtain ⟨hne, hmem⟩ := hF k' b' hb'
    refine ⟨hne, fun m hm => ?_⟩
    obtain ⟨cm, hcm, hkm⟩ := hmem m hm
    by_cases hms : m = sid
    · subst hms
      rw [hci] at hcm
      injection hcm with hcm
      subst hcm
      exact ⟨ci2, upd_same _ _ _, by rw [hproj]; exact Finset.mem_erase.mpr ⟨hk, hkm⟩⟩
    · exact ⟨cm, by rw [upd_other _ _ _ _ hms]; exact hcm, hkm⟩

theorem bucketInvB_remove (idx : String → Option (Finset String))
    (clients : String → Option ClientInfo) (proj : ClientInfo → Finset String)
    (sid k : String) (ci ci2 : ClientInfo)
    (hci : clients sid = some ci) (hproj : proj ci2 = (proj ci).erase k)
    (hB : bucketInvB idx clients proj) :
    bucketInvB (removeFromBucket idx k sid) (upd clients sid (some ci2)) proj := by
  intro m cm hcm k' hk'
  by_cases hms : m = sid
  · subst hms
    rw [upd_same] at hcm
    injection hcm with hcm
    subst hcm
    rw [hproj] at hk'
    obtain ⟨hkne, hk2⟩ := Finset.mem_erase.mp hk'
    obtain ⟨b0, hb0, hmb⟩ := hB m ci hci k' hk2
    exact ⟨b0, by rw [removeFromBucket_other _ _ _ _ hkne]; exact hb0, hmb⟩
  · rw [upd_other _ _ _ _ hms] at hcm
    obtain ⟨b0, hb0, hmb⟩ := hB m cm hcm k' hk'
    by_cases hkk : k' = k
    · subst hkk
      have hne2 : b0.erase sid ≠ ∅ := by
        intro hemp
        have hmm : m ∈ b0.erase sid := Finset.mem_erase.mpr ⟨hms, hmb⟩
        rw [hemp] at hmm
        simp at hmm
      refine ⟨b0.erase sid, ?_, Finset.mem_erase.mpr ⟨hms, hmb⟩⟩
      rw [removeFromBucket_same_some idx k' sid b0 hb0, if_neg hne2]
    · exact ⟨b0, by rw [removeFromBucket_other _ _ _ _ hkk]; exact hb0, hmb⟩

theorem bucketInvF_connect (idx : String → Option (Finset String))
    (clients : String → Option ClientInfo) (proj : ClientInfo → Finset String)
    (sid : String) (ci2 : ClientInfo)
    (hfresh : clients sid = none)
    (hF : bucketInvF idx clients proj) :
    bucketInvF idx (upd clients sid (some ci2)) proj := by
  intro k b hb
  obtain ⟨hne, hmem⟩ := hF k b hb
  refine ⟨hne, fun m hm => ?_⟩
  obtain ⟨cm, hcm, hkm⟩ := hmem m hm
  have hms : m ≠ sid := by
    intro h
    subst h
    rw [hfresh] at hcm
    exact Option.noConfusion hcm
  exact ⟨cm, by rw [upd_other _ _ _ _ hms]; exact hcm, hkm⟩

theorem bucketInvB_connect (idx : String → Option (Finset String))
    (clients : String → Option ClientInfo) (proj : ClientInfo → Finset String)
    (sid : String) (ci2 : ClientInfo)
    (hproj : proj ci2 = ∅)
    (hB : bucketInvB idx clients proj) :
    bucketInvB idx (upd clients sid (some ci2)) proj := by
  intro m cm hcm k hk
  by_cases hms : m = sid
  · subst hms
    rw [upd_same] at hcm
    injection hcm with hcm
    subst hcm
    rw [hproj] at hk
    simp at hk
  · rw [upd_other _ _ _ _ hms] at hcm
    exact hB m cm hcm k hk

theorem bucketInvF_disconnect (idx : String → Option (Finset String))
    (clients : String → Option ClientInfo) (proj : ClientInfo → Finset String)
    (sid : String) (ci : ClientInfo)
    (hci : clients sid = some ci)
    (hF : bucketInvF idx clients proj) :
    bucketInvF (removeFromBuckets idx (proj ci) sid) (upd clients sid none) proj := by
  intro k b hb
  by_cases hk : k ∈ proj ci
  · cases hidx : idx k with
    | none =>
      rw [removeFromBuckets_mem_none idx _ sid k hk hidx] at hb
      exact Option.noConfusion hb
    | some b0 =>
      rw [removeFromBuckets_mem_some idx _ sid k b0 hk hidx] at hb
      by_cases hemp : b0.erase sid = ∅
      · rw [if_pos hemp] at hb
        exact Option.noConfusion hb
      · rw [if_neg hemp] at hb
        injection hb with hb
        subst hb
        refine ⟨hemp, fun m hm => ?_⟩
        obtain ⟨hmne, hmb⟩ := Finset.mem_erase.mp hm
        obtain ⟨cm, hcm, hkm⟩ := (hF k b0 hidx).2 m hmb
        exact ⟨cm, by rw [upd_other _ _ _ _ hmne]; exact hcm, hkm⟩
  · rw [removeFromBuckets_not_mem idx _ sid k hk] at hb
    obtain ⟨hne, hmem⟩ := hF k b hb
    refine ⟨hne, fun m hm => ?_⟩
    obtain ⟨cm, hcm, hkm⟩ := hmem m hm
    have hms : m ≠ sid := by
      intro h
      subst h
      rw [hci] at hcm
      injection hcm with hcm
      subst hcm
      exact hk hkm
    exact ⟨cm, by rw [upd_other _ _ _ _ hms]; exact hcm, hkm⟩

theorem bucketInvB_disconnect (idx : String → Option (Finset String))
    (clients : String → Option ClientInfo) (proj : ClientInfo → Finset String)
    (sid : String) (ci : ClientInfo)
    (hci : clients sid = some ci)
    (hB : bucketInvB idx clients proj) :
    bucketInvB (removeFromBuckets idx (proj ci) sid) (upd clients sid none) proj := by
  intro m cm hcm k hk
  have hms : m ≠ sid := by
    intro h
    subst h
    rw [upd_same] at hcm
    exact Option.noConfusion hcm
  rw [upd_other _ _ _ _ hms] at hcm
  obtain ⟨b0, hb0, hmb⟩ := hB m cm hcm k hk
  by_cases hkmem : k ∈ proj ci
  · have hne2 : b0.erase sid ≠ ∅ := by
      intro hemp
      have hmm : m ∈ b0.erase sid := Finset.mem_erase.mpr ⟨hms, hmb⟩
      rw [hemp] at hmm
      simp at hmm
    refine ⟨b0.erase sid, ?_, Finset.mem_erase.mpr ⟨hms, hmb⟩⟩
    rw [removeFromBuckets_mem_some idx _ sid k b0 hkmem hb0, if_neg hne2]
  · exact ⟨b0, by rw [removeFromBuckets_not_mem idx _ sid k hkmem]; exact hb0, hmb⟩

theorem sessionInvOn_client_update (us : String → Option (Finset String))
    (clients : String → Option ClientInfo) (sid : String) (ci ci2 : ClientInfo)
    (hci : clients sid = some ci)
    (hu : ci2.user_id = ci.user_id) (ha : ci2.authenticated = ci.authenticated)
    (hS : sessionInvOn us clients) :
    sessionInvOn us (upd clients sid (some ci2)) := by
  intro u b hb
  obtain ⟨hne, hmem⟩ := hS u b hb
  refine ⟨hne, fun m hm => ?_⟩
  obtain ⟨cm, hcm, hum, ham⟩ := hmem m hm
  by_cases hms : m = sid
  · subst hms
    rw [hci] at hcm
    injection hcm with hcm
    subst hcm
    exact ⟨ci2, upd_same _ _ _, by rw [hu]; exact hum, by rw [ha]; exact ham⟩
  · exact ⟨cm, by rw [upd_other _ _ _ _ hms]; exact hcm, hum, ham⟩

theorem sessionInvOn_connect (us : String → Option (Finset String))
    (clients : String → Option ClientInfo) (sid : String) (auth : Option String)
    (hfresh : clients sid = none)
    (hS : sessionInvOn us clients) :
    sessionInvOn
      (auth.elim us (fun u => addToBucket us u sid))
      (upd clients sid (some
        { user_id := auth, authenticated := auth.isSome
          subscribed_routes := ∅, subscribed_trips := ∅ })) := by
  have hold : ∀ u b, us u = some b → b ≠ ∅ ∧
      ∀ m ∈ b, ∃ cm, (upd clients sid (some
        { user_id := auth, authenticated := auth.isSome
          subscribed_routes := ∅, subscribed_trips := ∅ })) m = some cm ∧
        cm.user_id = some u ∧ cm.authenticated = true := by
    intro u b hb
    obtain ⟨hne, hmem⟩ := hS u b hb
    refine ⟨hne, fun m hm => ?_⟩
    obtain ⟨cm, hcm, hum, ham⟩ := hmem m hm
    have hms : m ≠ sid := by
      intro h
      subst h
      rw [hfresh] at hcm
      exact Option.noConfusion hcm
    exact ⟨cm, by rw [upd_other _ _ _ _ hms]; exact hcm, hum, ham⟩
  cases auth with
  | none => exact hold
  | some u0 =>
    intro u b hb
    rw [Option.elim_some] at hb
    by_cases huu : u = u0
    · subst huu
      rw [addToBucket_same] at hb
      injection hb with hb
      subst hb
      refine ⟨Finset.insert_ne_empty _ _, fun m hm => ?_⟩
      rcases Finset.mem_insert.mp hm with rfl | hm2
      · exact ⟨_, upd_same _ _ _, rfl, rfl⟩
      · cases hus : us u with
        | none =>
          rw [hus] at hm2
          simp at hm2
        | some b0 =>
          rw [hus] at hm2
          simp only [Option.getD_some] at hm2
          exact (hold u b0 hus).2 m hm2
    · rw [addToBucket_other _ _ _ _ huu] at hb
      exact hold u b hb

theorem sessionInvOn_disconnect (us : String → Option (Finset String))
    (clients : String → Option ClientInfo) (sid : String) (ci : ClientInfo)
    (hci : clients sid = some ci)
    (hS : sessionInvOn us clients) :
    sessionInvOn
      (ci.user_id.elim us (fun u => removeFromBucket us u sid))
      (upd clients sid none) := by
  cases hu : ci.user_id with
  | none =>
    intro u b hb
    rw [Option.elim_none] at hb
    obtain ⟨hne, hmem⟩ := hS u b hb
    refine ⟨hne, fun m hm => ?_⟩
    obtain ⟨cm, hcm, hum, ham⟩ := hmem m hm
    have hms : m ≠ sid := by
      intro h
      subst h
      rw [hci] at hcm
      injection hcm with hcm
      subst hcm
      rw [hu] at hum
      exact Option.noConfusion hum
    exact ⟨cm, by rw [upd_other _ _ _ _ hms]; exact hcm, hum, ham⟩
  | some u0 =>
    intro u b hb
    rw [Option.elim_some] at hb
    by_cases huu : u = u0
    · subst huu
      cases hus : us u with
      | none =>
        rw [removeFromBucket_same_none us u sid hus] at hb
        exact Option.noConfusion hb
      | some b0 =>
        rw [removeFromBucket_same_some us u sid b0 hus] at hb
        by_cases hemp : b0.erase sid = ∅
        · rw [if_pos hemp] at hb
          exact Option.noConfusion hb
        · rw [if_neg hemp] at hb
          injection hb with hb
          subst hb
          refine ⟨hemp, fun m hm => ?_⟩
          obtain ⟨hmne, hmb⟩ := Finset.mem_erase.mp hm
          obtain ⟨cm, hcm, hum, ham⟩ := (hS u b0 hus).2 m hmb
          exact ⟨cm, by rw [upd_other _ _ _ _ hmne]; exact hcm, hum, ham⟩
    · rw [removeFromBucket_other _ _ _ _ huu] at hb
      obtain ⟨hne, hmem⟩ := hS u b hb
      refine ⟨hne, fun m hm => ?_⟩
      obtain ⟨cm, hcm, hum, ham⟩ := hmem m hm
      have hms : m ≠ sid := by
        intro h
        subst h
        rw [hci] at hcm
        injection hcm with hcm
        subst hcm
        rw [hu] at hum
        injection hum with hum
        exact huu hum.symm
      exact ⟨cm, by rw [upd_other _ _ _ _ hms]; exact hcm, hum, ham⟩

theorem step_disconnect_none (s : WSState) (sid : String)
    (hci : s.connected_clients sid = none) :
    step s (WSOp.disconnect sid) = s := by
  show (s.connected_clients sid).elim s _ = s
  rw [hci, Option.elim_none]

theorem step_disconnect_some (s : WSState) (sid : String) (ci : ClientInfo)
    (hci : s.connected_clients sid = some ci) :
    step s (WSOp.disconnect sid) =
      { connected_clients := upd s.connected_clients sid none
        user_sessions := ci.user_id.elim s.user_sessions
          (fun u => removeFromBucket s.user_sessions u sid)
        route_subscribers := removeFromBuckets s.route_subscribers ci.subscribed_routes sid
        trip_subscribers := removeFromBuckets s.trip_subscribers ci.subscribed_trips sid } := by
  show (s.connected_clients sid).elim s _ = _
  rw [hci, Option.elim_some]

theorem step_subscribe_route_eq (s : WSState) (sid route_id : String) (ci : ClientInfo)
    (hci : s.connected_clients sid = some ci) :
    step s (WSOp.subscribe_route sid route_id) =
      { s with
          route_subscribers := addToBucket s.route_subscribers route_id sid
          connected_clients := upd s.connected_clients sid
            (some { ci with subscribed_routes := insert route_id ci.subscribed_routes }) } := by
  show ({ s with
      route_subscribers := addToBucket s.route_subscribers route_id sid
      connected_clients := (s.connected_clients sid).elim s.connected_clients
        (fun ci0 => upd s.connected_clients sid
          (some { ci0 with subscribed_routes := insert route_id ci0.subscribed_routes })) } :
    WSState) = _
  rw [hci, Option.elim_some]

theorem step_unsubscribe_route_eq (s : WSState) (sid route_id : String) (ci : ClientInfo)
    (hci : s.connected_clients sid = some ci) :
    step s (WSOp.unsubscribe_route sid route_id) =
      { s with
          route_subscribers := removeFromBucket s.route_subscribers route_id sid
          connected_clients := upd s.connected_clients sid
            (some { ci with subscribed_routes := ci.subscribed_routes.erase route_id }) } := by
  show ({ s with
      route_subscribers := removeFromBucket s.route_subscribers route_id sid
      connected_clients := (s.connected_clients sid).elim s.connected_clients
        (fun ci0 => upd s.connected_clients sid
          (some { ci0 with subscribed_routes := ci0.subscribed_routes.erase route_id })) } :
    WSState) = _
  rw [hci, Option.elim_some]

theorem step_subscribe_trip_eq (s : WSState) (sid trip_id : String) (ci : ClientInfo)
    (hci : s.connected_clients sid = some ci) :
    step s (WSOp.subscribe_trip sid trip_id) =
      { s with
          trip_subscribers := addToBucket s.trip_subscribers trip_id sid
          connected_clients := upd s.connected_clients sid
            (some { ci with subscribed_trips := insert trip_id ci.subscribed_trips }) } := by
  show ({ s with
      trip_subscribers := addToBucket s.trip_subscribers trip_id sid
      connected_clients := (s.connected_clients sid).elim s.connected_clients
        (fun ci0 => upd s.connected_clients sid
          (some { ci0 with subscribed_trips := insert trip_id ci0.subscribed_trips })) } :
    WSState) = _
  rw [hci, Option.elim_some]

theorem step_unsubscribe_trip_eq (s : WSState) (sid trip_id : String) (ci : ClientInfo)
    (hci : s.connected_clients sid = some ci) :
    step s (WSOp.unsubscribe_trip sid trip_id) =
      { s with
          trip_subscribers := removeFromBucket s.trip_subscribers trip_id sid
          connected_clients := upd s.connected_clients sid
            (some { ci with subscribed_trips := ci.subscribed_trips.erase trip_id }) } := by
  show ({ s with
      trip_subscribers := removeFromBucket s.trip_subscribers trip_id sid
      connected_clients := (s.connected_clients sid).elim s.connected_clients
        (fun ci0 => upd s.connected_clients sid
          (some { ci0 with subscribed_trips := ci0.subscribed_trips.erase trip_id })) } :
    WSState) = _
  rw [hci, Option.elim_some]

theorem step_preserves (s : WSState) (op : WSOp)
    (hok : opOK s op) (hinv : WSInv s) : WSInv (step s op) := by
  obtain ⟨hRF, hRB, hTF, hTB, hS⟩ := hinv
  cases op with
  | connect sid auth =>
    have hfresh : s.connected_clients sid = none := hok
    refine ⟨?_, ?_, ?_, ?_, ?_⟩
    · exact bucketInvF_connect _ _ _ sid _ hfresh hRF
    · exact bucketInvB_connect _ _ _ sid _ rfl hRB
    · exact bucketInvF_connect _ _ _ sid _ hfresh hTF
    · exact bucketInvB_connect _ _ _ sid _ rfl hTB
    · exact sessionInvOn_connect _ _ sid auth hfresh hS
  | disconnect sid =>
    cases hci : s.connected_clients sid with
    | none =>
      rw [step_disconnect_none s sid hci]
      exact ⟨hRF, hRB, hTF, hTB, hS⟩
    | some ci =>
      rw [step_disconnect_some s sid ci hci]
      exact ⟨bucketInvF_disconnect _ _ _ sid ci hci hRF,
             bucketInvB_disconnect _ _ _ sid ci hci hRB,
             bucketInvF_disconnect _ _ _ sid ci hci hTF,
             bucketInvB_disconnect _ _ _ sid ci hci hTB,
             sessionInvOn_disconnect _ _ sid ci hci hS⟩
  | subscribe_route sid route_id =>
    have hok2 : s.connected_clients sid ≠ none := hok
    obtain ⟨ci, hci⟩ := Option.ne_none_iff_exists'.mp hok2
    rw [step_subscribe_route_eq s sid route_id ci hci]
    exact ⟨bucketInvF_add _ _ _ sid route_id ci _ hci rfl hRF,
           bucketInvB_add _ _ _ sid route_id ci _ hci rfl hRB,
           bucketInvF_client _ _ _ sid ci _ hci (Finset.Subset.refl _) hTF,
           bucketInvB_client _ _ _ sid ci _ hci rfl hTB,
           sessionInvOn_client_update _ _ sid ci _ hci rfl rfl hS⟩
  | unsubscribe_route sid route_id =>
    have hok2 : s.connected_clients sid ≠ none := hok
    obtain ⟨ci, hci⟩ := Option.ne_none_iff_exists'.mp hok2
    rw [step_unsubscribe_route_eq s sid route_id ci hci]
    exact ⟨bucketInvF_remove _ _ _ sid route_id ci _ hci rfl hRF,
           bucketInvB_remove _ _ _ sid route_id ci _ hci rfl hRB,
           bucketInvF_client _ _ _ sid ci _ hci (Finset.Subset.refl _) hTF,
           bucketInvB_client _ _ _ sid ci _ hci rfl hTB,
           sessionInvOn_client_update _ _ sid ci _ hci rfl rfl hS⟩
  | subscribe_trip sid trip_id =>
    have hok2 : s.connected_clients sid ≠ none := hok
    obtain ⟨ci, hci⟩ := Option.ne_none_iff_exists'.mp hok2
    rw [step_subscribe_trip_eq s sid trip_id ci hci]
    exact ⟨bucketInvF_client _ _ _ sid ci _ hci (Finset.Subset.refl _) hRF,
           bucketInvB_client _ _ _ sid ci _ hci rfl hRB,
           bucketInvF_add _ _ _ sid trip_id ci _ hci rfl hTF,
           bucketInvB_add _ _ _ sid trip_id ci _ hci rfl hTB,
           sessionInvOn_client_update _ _ sid ci _ hci rfl rfl hS⟩
  | unsubscribe_trip sid trip_id =>
    have hok2 : s.connected_clients sid ≠ none := hok
    obtain ⟨ci, hci⟩ := Option.ne_none_iff_exists'.mp hok2
    rw [step_unsubscribe_trip_eq s sid trip_id ci hci]
    exact ⟨bucketInvF_client _ _ _ sid ci _ hci (Finset.Subset.refl _) hRF,
           bucketInvB_client _ _ _ sid ci _ hci rfl hRB,
           bucketInvF_remove _ _ _ sid trip_id ci _ hci rfl hTF,
           bucketInvB_remove _ _ _ sid trip_id ci _ hci rfl hTB,
           sessionInvOn_client_update _ _ sid ci _ hci rfl rfl hS⟩

theorem emptyWS_inv : WSInv emptyWS := by
  refine ⟨?_, ?_, ?_, ?_, ?_⟩
  · intro k b hb
    exact Option.noConfusion hb
  · intro sid ci hci
    exact Option.noConfusion hci
  · intro k b hb
    exact Option.noConfusion hb
  · intro sid ci hci
    exact Option.noConfusion hci
  · intro u b hb
    exact Option.noConfusion hb

theorem run_preserves : ∀ (ops : List WSOp) (s : WSState),
    WSInv s → okSeq s ops → WSInv (run s ops) := by
  intro ops
  induction ops with
  | nil => intro s hinv _; exact hinv
  | cons op rest ih =>
    intro s hinv hok
    exact ih (step s op) (step_preserves s op hok.1 hinv) hok.2

/-- The registry-consistency property of claim C1: for every connection
and key, membership in the route/trip index bucket coincides with the
connection's own subscription set; every existing bucket is non-empty (no
dangling keys); and a session id that is not connected — in particular,
right after its disconnect — appears in no bucket of any index. -/
def RegistryConsistent (s : WSState) : Prop :=
  (∀ sid ci, s.connected_clients sid = some ci →
    ∀ k, ((∃ b, s.route_subscribers k = some b ∧ sid ∈ b) ↔ k ∈ ci.subscribed_routes) ∧
         ((∃ b, s.trip_subscribers k = some b ∧ sid ∈ b) ↔ k ∈ ci.subscribed_trips)) ∧
  (∀ k b, s.route_subscribers k = some b → b ≠ ∅) ∧
  (∀ k b, s.trip_subscribers k = some b → b ≠ ∅) ∧
  (∀ sid, s.connected_clients sid = none →
    (∀ k b, s.route_subscribers k = some b → sid ∉ b) ∧
    (∀ k b, s.trip_subscribers k = some b → sid ∉ b) ∧
    (∀ u b, s.user_sessions u = some b → sid ∉ b))

theorem consistent_of_inv (s : WSState) (h : WSInv s) : RegistryConsistent s := by
  obtain ⟨hRF, hRB, hTF, hTB, hS⟩ := h
  refine ⟨?_, ?_, ?_, ?_⟩
  · intro sid ci hci k
    constructor
    · constructor
      · rintro ⟨b, hb, hmem⟩
        obtain ⟨cm, hcm, hk⟩ := (hRF k b hb).2 sid hmem
        rw [hci] at hcm
        injection hcm with hcm
        subst hcm
        exact hk
      · intro hk
        exact hRB sid ci hci k hk
    · constructor
      · rintro ⟨b, hb, hmem⟩
        obtain ⟨cm, hcm, hk⟩ := (hTF k b hb).2 sid hmem
        rw [hci] at hcm
        injection hcm with hcm
        subst hcm
        exact hk
      · intro hk
        exact hTB sid ci hci k hk
  · intro k b hb
    exact (hRF k b hb).1
  · intro k b hb
    exact (hTF k b hb).1
  · intro sid hnone
    refine ⟨?_, ?_, ?_⟩
    · intro k b hb hmem
      obtain ⟨cm, hcm, _⟩ := (hRF k b hb).2 sid hmem
      rw [hnone] at hcm
      exact Option.noConfusion hcm
    · intro k b hb hmem
      obtain ⟨cm, hcm, _⟩ := (hTF k b hb).2 sid hmem
      rw [hnone] at hcm
      exact Option.noConfusion hcm
    · intro u b hb hmem
      obtain ⟨cm, hcm, _⟩ := (hS u b hb).2 sid hmem
      rw [hnone] at hcm
      exact Option.noConfusion hcm

/-- Claim C1 (corrected): under the transport discipline — subscribes and
unsubscribes name currently connected session ids and connects name fresh
ones; disconnects are unrestricted and may name unknown or
already-disconnected ids — every reachable registry state satisfies the
consistency property: `c ∈ index[k] ⇔ k ∈ c.subscribed`, empty buckets
are pruned immediately, and a disconnected session id appears in no
bucket of any index.  (Without the discipline the code violates the
property, see the counterexample.) -/
theorem C1_amended (ops : List WSOp) (hok : okSeq emptyWS ops) :
    RegistryConsistent (run emptyWS ops) :=
  consistent_of_inv _ (run_preserves ops emptyWS emptyWS_inv hok)

/-- Counterexample to C1 as stated: `subscribe_route` from an unknown
session id mutates the route bucket before its `KeyError` is swallowed,
so after `[subscribe_route a r, connect a]` the connection `a` is in the
bucket for `r` while `r` is not in its subscribed set — the claimed
biconditional fails for a sequence that names an unknown session id. -/
theorem C1_counterexample :
    ∃ ci b,
      (run emptyWS [WSOp.subscribe_route "a" "r",
        WSOp.connect "a" none]).connected_clients "a" = some ci ∧
      (run emptyWS [WSOp.subscribe_route "a" "r",
        WSOp.connect "a" none]).route_subscribers "r" = some b ∧
      "a" ∈ b ∧ "r" ∉ ci.subscribed_routes := by
  refine ⟨{ user_id := none, authenticated := false
            subscribed_routes := ∅, subscribed_trips := ∅ },
          {"a"}, ?_, ?_, ?_, ?_⟩ <;> decide

/-- Witness for C1: a disciplined connect/subscribe/disconnect sequence
satisfies the hypotheses, and the consistency property holds after it. -/
theorem C1_witness :
    okSeq emptyWS [WSOp.connect "a" none, WSOp.subscribe_route "a" "r",
      WSOp.disconnect "a"] ∧
    RegistryConsistent (run emptyWS [WSOp.connect "a" none,
      WSOp.subscribe_route "a" "r", WSOp.disconnect "a"]) := by
  have hok : okSeq emptyWS [WSOp.connect "a" none, WSOp.subscribe_route "a" "r",
      WSOp.disconnect "a"] := by
    refine ⟨rfl, ?_, trivial, trivial⟩
    intro h
    have h2 : (step emptyWS (WSOp.connect "a" none)).connected_clients "a" =
        some { user_id := none, authenticated := false
               subscribed_routes := ∅, subscribed_trips := ∅ } := by decide
    rw [h2] at h
    exact Option.noConfusion h
  exact ⟨hok, C1_amended _ hok⟩

/-- Claim C10 (confirmed): in every state reachable under the transport
discipline, a session id in `user_sessions[u]` belongs to a currently
connected client whose stored user id is `u` and whose token verification
succeeded at connect time; hence `emit_notification` for `u` sends only
to connections authenticated as `u`, and an unauthenticated connection
never receives a user-targeted notification. -/
theorem C10_user_sessions_auth (ops : List WSOp) (u sid : String)
    (hok : okSeq emptyWS ops)
    (hmem : sid ∈ emitNotificationSends (run emptyWS ops) u) :
    ∃ ci, (run emptyWS ops).connected_clients sid = some ci ∧
      ci.user_id = some u ∧ ci.authenticated = true := by
  obtain ⟨_, _, _, _, hS⟩ := run_preserves ops emptyWS emptyWS_inv hok
  unfold emitNotificationSends at hmem
  cases hus : (run emptyWS ops).user_sessions u with
  | none =>
    rw [hus] at hmem
    simp at hmem
  | some b =>
    rw [hus] at hmem
    simp only [Option.getD_some] at hmem
    exact (hS u b hus).2 sid (Finset.mem_def.mpr hmem)

/-- Witness for C10: after a single authenticated connect, the session is
a recipient and is indeed connected, authenticated, and stored under the
right user. -/
theorem C10_witness :
    ∃ ci, (run emptyWS [WSOp.connect "a" (some "u1")]).connected_clients "a" = some ci ∧
      ci.user_id = some "u1" ∧ ci.authenticated = true :=
  C10_user_sessions_auth [WSOp.connect "a" (some "u1")] "u1" "a"
    ⟨rfl, trivial⟩ (by decide)

/-- Claim C3 (corrected): `emit_trip_update` iterates the trip bucket and
the route bucket separately, so a connection belonging to both buckets
receives the update twice per emit; connections in exactly one of the two
buckets receive it once, and connections in neither receive nothing. -/
theorem C3_amended (s : WSState) (trip_id route_id sid : String) :
    (sid ∈ ((s.trip_subscribers trip_id).getD ∅ ∪ (s.route_subscribers route_id).getD ∅) ↔
      1 ≤ Multiset.count sid (tripUpdateSends s trip_id route_id)) ∧
    (sid ∉ ((s.trip_subscribers trip_id).getD ∅ ∪ (s.route_subscribers route_id).getD ∅) →
      Multiset.count sid (tripUpdateSends s trip_id route_id) = 0) ∧
    (sid ∈ (s.trip_subscribers trip_id).getD ∅ →
      sid ∈ (s.route_subscribers route_id).getD ∅ →
      Multiset.count sid (tripUpdateSends s trip_id route_id) = 2) ∧
    (sid ∈ ((s.trip_subscribers trip_id).getD ∅ ∪ (s.route_subscribers route_id).getD ∅) →
      ¬(sid ∈ (s.trip_subscribers trip_id).getD ∅ ∧
        sid ∈ (s.route_subscribers route_id).getD ∅) →
      Multiset.count sid (tripUpdateSends s trip_id route_id) = 1) := by
  have hcount : ∀ b : Finset String, Multiset.count sid b.val = if sid ∈ b then 1 else 0 := by
    intro b
    by_cases h : sid ∈ b
    · rw [if_pos h]
      exact Multiset.count_eq_one_of_mem b.nodup h
    · rw [if_neg h]
      exact Multiset.count_eq_zero_of_not_mem h
  have key : Multiset.count sid (tripUpdateSends s trip_id route_id) =
      (if sid ∈ (s.trip_subscribers trip_id).getD ∅ then 1 else 0) +
      (if sid ∈ (s.route_subscribers route_id).getD ∅ then 1 else 0) := by
    unfold tripUpdateSends
    rw [Multiset.count_add, hcount, hcount]
  by_cases ht : sid ∈ (s.trip_subscribers trip_id).getD ∅ <;>
    by_cases hr : sid ∈ (s.route_subscribers route_id).getD ∅ <;>
      simp [key, ht, hr, Finset.mem_union]

def opsC3 : List WSOp :=
  [WSOp.connect "a" none, WSOp.subscribe_trip "a" "t", WSOp.subscribe_route "a" "r"]

/-- Counterexample to C3 as stated: a connection subscribed to both trip t
and route r is in the union of the two subscriber sets but receives the
trip update twice, not once. -/
theorem C3_counterexample :
    "a" ∈ (((run emptyWS opsC3).trip_subscribers "t").getD ∅ ∪
      ((run emptyWS opsC3).route_subscribers "r").getD ∅) ∧
    Multiset.count "a" (tripUpdateSends (run emptyWS opsC3) "t" "r") = 2 := by
  constructor <;> decide

/-- Witness for C3: the amended delivery-count characterization applied at
the doubly subscribed concrete connection. -/
theorem C3_witness :
    Multiset.count "a" (tripUpdateSends (run emptyWS opsC3) "t" "r") = 2 :=
  (C3_amended (run emptyWS opsC3) "t" "r" "a").2.2.1 (by decide) (by decide)

/-- The delivery loop of `emit_trip_update` over one snapshot list under a
failure model: `fails sid = true` means the send to `sid` raises.  The
loop stops at the first failure (the exception propagates to the
function-level `except`); returns the successful sends and whether it
aborted. -/
def emitToList : List String → (String → Bool) → List String × Bool
  | [], _ => ([], false)
  | sid :: rest, fails =>
    if fails sid then ([], true)
    else ((sid :: (emitToList rest fails).1), (emitToList rest fails).2)

/-- `emit_trip_update` under the failure model: deliver to the trip
snapshot list, then — only if no send raised — to the route snapshot
list; a failure in either loop ends the whole emit (the single
`try`/`except` wraps the entire method body). -/
def emit_trip_update_sends (trip_list route_list : List String)
    (fails : String → Bool) : List String :=
  if (emitToList trip_list fails).2 then (emitToList trip_list fails).1
  else (emitToList trip_list fails).1 ++ (emitToList route_list fails).1

/-- The whole `emit_trip_update` call as a state transformer: the method
reads the indices but never mutates the manager state — no connection is
removed on failure. -/
def emit_trip_update_run (s : WSState) (trip_list route_list : List String)
    (fails : String → Bool) : WSState × List String :=
  (s, emit_trip_update_sends trip_list route_list fails)

theorem emitToList_eq (fails : String → Bool) : ∀ l : List String,
    emitToList l fails = (l.takeWhile (fun x => !fails x), l.any fails) := by
  intro l
  induction l with
  | nil => rfl
  | cons x rest ih =>
    unfold emitToList
    by_cases hx : fails x = true
    · rw [if_pos hx]
      simp [List.takeWhile_cons, List.any_cons, hx]
    · rw [if_neg hx]
      rw [ih]
      have hx2 : fails x = false := Bool.eq_false_iff.mpr hx
      simp [List.takeWhile_cons, List.any_cons, hx2]

theorem takeWhile_append_of_any (p : String → Bool) :
    ∀ (l r : List String), l.any p = true →
      (l ++ r).takeWhile (fun x => !p x) = l.takeWhile (fun x => !p x) := by
  intro l
  induction l with
  | nil =>
    intro r h
    simp at h
  | cons x tl ih =>
    intro r h
    by_cases hx : p x = true
    · simp [List.takeWhile_cons, hx]
    · have hx2 : p x = false := Bool.eq_false_iff.mpr hx
      rw [List.any_cons, hx2, Bool.false_or] at h
      simp [List.takeWhile_cons, hx2, ih r h]

theorem takeWhile_append_of_not_any (p : String → Bool) :
    ∀ (l r : List String), l.any p = false →
      (l ++ r).takeWhile (fun x => !p x) = l ++ r.takeWhile (fun x => !p x) := by
  intro l
  induction l with
  | nil =>
    intro r _
    rfl
  | cons x tl ih =>
    intro r h
    rw [List.any_cons, Bool.or_eq_false_iff] at h
    simp [List.takeWhile_cons, h.1, ih r h.2]

/-- Claim C4 (corrected): a failing send aborts the rest of the emit: the
deliveries are exactly the connections strictly before the first failing
one in the concatenated trip-then-route snapshot order (so connections
after a failure receive nothing for that emit, contrary to the claim);
with no failures everyone in both snapshots is delivered; and the
manager state is untouched — the failing connection is not removed from
any index or from the client map. -/
theorem C4_amended (s : WSState) (trip_list route_list : List String)
    (fails : String → Bool) :
    emit_trip_update_sends trip_list route_list fails =
      (trip_list ++ route_list).takeWhile (fun x => !fails x) ∧
    ((∀ x ∈ trip_list, fails x = false) → (∀ x ∈ route_list, fails x = false) →
      emit_trip_update_sends trip_list route_list fails = trip_list ++ route_list) ∧
    (emit_trip_update_run s trip_list route_list fails).1 = s := by
  have h1 : emit_trip_update_sends trip_list route_list fails =
      (trip_list ++ route_list).takeWhile (fun x => !fails x) := by
    unfold emit_trip_update_sends
    rw [emitToList_eq fails trip_list, emitToList_eq fails route_list]
    by_cases hany : trip_list.any fails = true
    · rw [if_pos hany, takeWhile_append_of_any fails trip_list route_list hany]
    · have hany2 : trip_list.any fails = false := Bool.eq_false_iff.mpr hany
      rw [hany2]
      rw [if_neg (by simp)]
      rw [takeWhile_append_of_not_any fails trip_list route_list hany2]
      congr 1
      have h3 := takeWhile_append_of_not_any fails trip_list [] hany2
      rw [List.append_nil, List.takeWhile_nil, List.append_nil] at h3
      exact h3
  refine ⟨h1, ?_, rfl⟩
  intro htl hrl
  rw [h1]
  have htl2 : trip_list.any fails = false := by
    rw [List.any_eq_false]
    intro x hx
    simp [htl x hx]
  have hrl2 : route_list.any fails = false := by
    rw [List.any_eq_false]
    intro x hx
    simp [hrl x hx]
  rw [takeWhile_append_of_not_any fails trip_list route_list htl2]
  congr 1
  have h3 := takeWhile_append_of_not_any fails route_list [] hrl2
  rw [List.append_nil, List.takeWhile_nil, List.append_nil] at h3
  exact h3

/-- Counterexample to C4 as stated: with trip snapshot `[a, b]` and the
send to `a` raising, the non-failing subscriber `b` receives nothing —
the emit does not continue with the remaining connections. -/
theorem C4_counterexample :
    "b" ∈ ["a", "b"] ∧ (fun x => x == "a") "b" = false ∧
    "b" ∉ emit_trip_update_sends ["a", "b"] [] (fun x => x == "a") := by
  refine ⟨?_, ?_, ?_⟩ <;> decide

/-- Witness for C4: with no failures, both snapshot lists are delivered in
full. -/
theorem C4_witness :
    emit_trip_update_sends ["a", "b"] ["c"] (fun _ => false) = ["a", "b"] ++ ["c"] :=
  (C4_amended emptyWS ["a", "b"] ["c"] (fun _ => false)).2.1
    (fun _ _ => rfl) (fun _ _ => rfl)

end BusNotify
